import Mathlib

/-!
Verification of the flyer-webhook reward-ledger bot.

Shallow embedding of `src/database.py` and `src/bot.py` (a Telegram
reward-ledger bot backed by SQLite), together with proofs settling the
specification claims about it.

Modelling conventions:
* the SQLite store becomes an explicit `DB` state record; each Python
  function that reads/writes the store becomes a Lean function
  `DB → ... → DB` (returning result values alongside when the source does);
* integers are `Int` (SQLite INTEGER is signed; balances may go negative);
* SQL `NULL` becomes `Option`; Python truthiness of an optional integer
  (`if referrer_id:`) is `none`-or-zero falsy, modelled by `refTruthy`;
* ISO-8601 timestamp strings compare chronologically, so timestamps are
  modelled as `Option Int` compared with `<`;
* the Telegram membership probe (`get_chat_member` plus the
  `status in ("left","kicked")` test inside a `try/except`) is an input of
  type `MemberCheck`: `member` when the call succeeded and the status is
  not left/kicked, `notMember` for left/kicked, `unknown` for an exception;
* a handler that raises before touching the store leaves the store
  unchanged, so such paths return the state unmodified.
-/

/-- A row of the `users` table: balance, level, optional referrer. -/
structure UserRow where
  balance : Int
  level : Int
  referrer_id : Option Int
deriving Repr, DecidableEq

/-- A row of the `tasks` table (fields the core logic reads). -/
structure TaskRow where
  id : Nat
  type : String
  reward : Int
  created_by : Option Int
deriving Repr, DecidableEq

/-- A row of the `task_assignments` table; `(task_id, user_id)` carries a
UNIQUE constraint in the schema. -/
structure AssignmentRow where
  id : Nat
  task_id : Nat
  user_id : Int
  status : String
  proof : Option String
  comment : Option String
deriving Repr, DecidableEq

/-- A row of the `promocodes` table; `code` is the primary key, stored
upper-cased. -/
structure PromoRow where
  code : String
  reward : Int
  expires_at : Option Int
  uses_left : Option Int
deriving Repr, DecidableEq

/-- A row of the `subscription_watch` table. -/
structure WatchRow where
  id : Nat
  user_id : Int
  chat_id : String
  reward : Int
  task_id : Option Nat
  due_at : Int
  stage : String
deriving Repr, DecidableEq

/-- The whole SQLite store, plus the AUTOINCREMENT counters. -/
structure DB where
  users : Int → Option UserRow
  tasks : List TaskRow
  assignments : List AssignmentRow
  promocodes : List PromoRow
  watches : List WatchRow
  next_assignment_id : Nat
  next_watch_id : Nat

/-- Python truthiness of an optional integer: `None` and `0` are falsy. -/
def refTruthy : Option Int → Bool
  | none => false
  | some r => r != 0

/-- Embeds `database.get_user`. -/
def get_user (db : DB) (user_id : Int) : Option UserRow :=
  db.users user_id

/-- Embeds `database.add_user_if_not_exists`: insert `(balance 0, level 1, referrer)`
when the id is unseen; otherwise, when the argument is truthy, set
`referrer_id = COALESCE(referrer_id, arg)`. -/
def add_user_if_not_exists (db : DB) (user_id : Int) (referrer_id : Option Int) : DB :=
  match db.users user_id with
  | none =>
      { db with users := fun i =>
          if i = user_id then some ⟨0, 1, referrer_id⟩ else db.users i }
  | some u =>
      if refTruthy referrer_id then
        { db with users := fun i =>
            if i = user_id then some { u with referrer_id := u.referrer_id <|> referrer_id }
            else db.users i }
      else db

/-- Embeds `database.increment_balance`: `UPDATE users SET balance = balance + ?`
(a no-op when the row is absent). -/
def increment_balance (db : DB) (user_id : Int) (delta : Int) : DB :=
  { db with users := fun i =>
      if i = user_id then (db.users i).map (fun u => { u with balance := u.balance + delta })
      else db.users i }

/-- Embeds `database.update_level`: `UPDATE users SET level = ?`. -/
def update_level (db : DB) (user_id : Int) (level : Int) : DB :=
  { db with users := fun i =>
      if i = user_id then (db.users i).map (fun u => { u with level := level })
      else db.users i }

/-- Embeds `database.get_task`. -/
def get_task (db : DB) (task_id : Nat) : Option TaskRow :=
  db.tasks.find? (fun t => t.id == task_id)

/-- Embeds `database.get_assignment`. -/
def get_assignment (db : DB) (assignment_id : Nat) : Option AssignmentRow :=
  db.assignments.find? (fun a => a.id == assignment_id)

/-- Embeds `database.get_assignment_by_task_user`. -/
def get_assignment_by_task_user (db : DB) (task_id : Nat) (user_id : Int) :
    Option AssignmentRow :=
  db.assignments.find? (fun a => a.task_id == task_id && a.user_id == user_id)

/-- Embeds `database.create_assignment`: `INSERT OR IGNORE` against the
`UNIQUE(task_id, user_id)` constraint. When the pair already has a row the
insert is silently ignored and `cursor.lastrowid` on the fresh connection is
`0` (no successful insert happened on it), which is what the function
returns. -/
def create_assignment (db : DB) (task_id : Nat) (user_id : Int) (status : String) :
    DB × Nat :=
  if db.assignments.any (fun a => a.task_id == task_id && a.user_id == user_id) then
    (db, 0)
  else
    let aid := db.next_assignment_id
    ({ db with
        assignments := db.assignments ++ [⟨aid, task_id, user_id, status, none, none⟩],
        next_assignment_id := aid + 1 }, aid)

/-- Embeds `database.update_assignment_status`: sets `status`, sets
`proof = COALESCE(new, old)`, overwrites `comment` with the argument. -/
def update_assignment_status (db : DB) (assignment_id : Nat) (status : String)
    (proof comment : Option String) : DB :=
  { db with assignments := db.assignments.map (fun a =>
      if a.id == assignment_id then
        { a with status := status, proof := proof <|> a.proof, comment := comment }
      else a) }

/-- Upper-casing as applied to promo codes (`code.upper()` in both
`create_promocode` and `redeem_promocode`), computed on the character list
of the string. -/
def strUpper (s : String) : String :=
  ⟨s.data.map Char.toUpper⟩

/-- The expiry test of `database.redeem_promocode`:
`row[2] and row[2] < datetime.utcnow().isoformat()` (ISO strings compare
chronologically, modelled on `Int`; an absent expiry is never expired). -/
def promoExpired (expires_at : Option Int) (now : Int) : Bool :=
  match expires_at with
  | some t => t < now
  | none => false

/-- The exhaustion test of `database.redeem_promocode`:
`row[3] is not None and row[3] <= 0`. -/
def promoExhausted (uses_left : Option Int) : Bool :=
  match uses_left with
  | some n => n ≤ 0
  | none => false

/-- Embeds `database.redeem_promocode`: look the (upper-cased) code up; reject when
absent, expired, or exhausted; otherwise credit the balance and, when a uses
counter is tracked, decrement it. Returns `(new state, ok, message, reward)`.
No per-user activation record exists in the schema. -/
def redeem_promocode (db : DB) (user_id : Int) (code : String) (now : Int) :
    DB × Bool × String × Int :=
  match db.promocodes.find? (fun p => p.code == strUpper code) with
  | none => (db, false, "Промокод не найден", 0)
  | some row =>
      if promoExpired row.expires_at now then
        (db, false, "Срок действия промокода истёк", 0)
      else if promoExhausted row.uses_left then
        (db, false, "Промокод больше не активен", 0)
      else
        let db1 := increment_balance db user_id row.reward
        let db2 :=
          if row.uses_left != none then
            { db1 with promocodes := db1.promocodes.map (fun p =>
                if p.code == row.code then
                  { p with uses_left := p.uses_left.map (fun n => n - 1) }
                else p) }
          else db1
        (db2, true, "Промокод применён", row.reward)

/-- Embeds `database.schedule_subscription_watch`: insert a watch row, return its id. -/
def schedule_subscription_watch (db : DB) (user_id : Int) (chat_id : String)
    (reward : Int) (task_id : Option Nat) (due_at : Int) (stage : String) : DB × Nat :=
  let wid := db.next_watch_id
  ({ db with
      watches := db.watches ++ [⟨wid, user_id, chat_id, reward, task_id, due_at, stage⟩],
      next_watch_id := wid + 1 }, wid)

/-- Embeds `database.delete_subscription_watch`. -/
def delete_subscription_watch (db : DB) (watch_id : Nat) : DB :=
  { db with watches := db.watches.filter (fun w => w.id != watch_id) }

/-- Embeds `database.get_subscription_watch`. -/
def get_subscription_watch (db : DB) (watch_id : Nat) : Option WatchRow :=
  db.watches.find? (fun w => w.id == watch_id)

/-! Section: handlers of `bot.py`. -/

/-- Outcome of the Telegram membership probe inside a handler:
`bot.get_chat_member` followed by the `status in ("left", "kicked")` test,
all inside `try/except`. `member` means the call succeeded with a status
other than left/kicked; `notMember` means left/kicked; `unknown` means the
call raised. -/
inductive MemberCheck where
  | member
  | notMember
  | unknown
deriving Repr, DecidableEq

/-- The handlers penalize (or refuse) exactly when the probe did not
positively confirm membership: left/kicked raises `ValueError` and any
exception lands in the `except` branch, so only `member` passes. -/
def memberOk : MemberCheck → Bool
  | .member => true
  | .notMember => false
  | .unknown => false

/-- The referral bonus of `bot.reward_user`: `math.floor(reward * 0.15)`,
modelled in exact arithmetic as `⌊reward * 15 / 100⌋` (floor division). -/
def ref_bonus (reward : Int) : Int :=
  (reward * 15).fdiv 100

/-- Embeds `bot.reward_user`: credit `reward` to the user; re-read the row; when the
stored `referrer_id` is truthy, credit the referrer `ref_bonus reward`; when
the re-read balance is at least 5000, set the level to
`max(level, 2)` (both tests use the row snapshot taken after the first
credit). -/
def reward_user (db : DB) (user_id : Int) (reward : Int) : DB :=
  let db1 := increment_balance db user_id reward
  match get_user db1 user_id with
  | none => db1
  | some u =>
      let db2 :=
        if refTruthy u.referrer_id then
          increment_balance db1 (u.referrer_id.getD 0) (ref_bonus reward)
        else db1
      if u.balance ≥ 5000 then update_level db2 user_id (max u.level 2) else db2

/-- Result of `bot.take_task` as shown to the user. -/
inductive TakeResult where
  | taskNotFound
  | alreadyActive
  | taken (assignment_id : Nat)
deriving Repr, DecidableEq

/-- Embeds `bot.take_task`: refuse when the task is missing; refuse with "Вы уже
взяли это задание" when an assignment for the pair exists whose status is
neither `rejected` nor `needs_work`; otherwise call
`create_assignment(task_id, user_id)` (status "pending"). -/
def take_task (db : DB) (task_id : Nat) (user_id : Int) : DB × TakeResult :=
  match get_task db task_id with
  | none => (db, .taskNotFound)
  | some _ =>
      match get_assignment_by_task_user db task_id user_id with
      | some a =>
          if a.status != "rejected" && a.status != "needs_work" then
            (db, .alreadyActive)
          else
            let r := create_assignment db task_id user_id "pending"
            (r.1, .taken r.2)
      | none =>
          let r := create_assignment db task_id user_id "pending"
          (r.1, .taken r.2)

/-- Embeds `bot.complete_view`: fetch the assignment (missing → the handler stops
before any write), fetch its task (missing → the handler raises before any
write), then `reward_user(from_user, task.reward)` and set the status to
`approved` with proof "viewed". No status check is made before paying. -/
def complete_view (db : DB) (assignment_id : Nat) (from_user : Int) : DB :=
  match get_assignment db assignment_id with
  | none => db
  | some a =>
      match get_task db a.task_id with
      | none => db
      | some t =>
          let db1 := reward_user db from_user t.reward
          update_assignment_status db1 assignment_id "approved" (some "viewed") none

/-- Embeds `bot.approve_reaction`: fetch the assignment (missing → stop), fetch its
task (missing → the handler raises before any write), then
`reward_user(assignment.user_id, task.reward)` and set the status to
`approved`. No status check is made before paying. -/
def approve_reaction (db : DB) (assignment_id : Nat) : DB :=
  match get_assignment db assignment_id with
  | none => db
  | some a =>
      match get_task db a.task_id with
      | none => db
      | some t =>
          let db1 := reward_user db a.user_id t.reward
          update_assignment_status db1 assignment_id "approved" none none

/-- Embeds `bot.check_subscription_job`: fetch the watch by the job's id (missing →
return, a no-op); probe membership; on left/kicked or exception debit
`watch.reward` from the watched user; delete the watch in every path. -/
def check_subscription_job (db : DB) (watch_id : Nat) (check : MemberCheck) : DB :=
  match get_subscription_watch db watch_id with
  | none => db
  | some w =>
      let db1 := if memberOk check then db else increment_balance db w.user_id (-w.reward)
      delete_subscription_watch db1 watch_id

/-- Embeds `bot.reschedule_watches`: for every stored watch, arm a
`check_subscription_job` timer with delay `max(0, due_at - now)` seconds.
The result lists the `(watch id, delay)` jobs armed on the queue. -/
def reschedule_watches (db : DB) (now : Int) : List (Nat × Int) :=
  db.watches.map (fun w => (w.id, max 0 (w.due_at - now)))

/-- The decimal value of a digit string, as `int()` reads it. -/
def digitsVal (cs : List Char) : Nat :=
  cs.foldl (fun n c => n * 10 + (c.toNat - 48)) 0

/-- The referral-parameter parse in `bot.start`: a first argument of the form
`ref_<digits>` (`startswith("ref_")` and `[4:].isdigit()`, which requires a
non-empty all-digit suffix) yields a referrer id; anything else — no
argument, a different head, an empty or non-numeric suffix — yields none.
Computed on the character list of the argument. -/
def parse_ref_arg (args : List String) : Option Int :=
  match args with
  | [] => none
  | a :: _ =>
      match a.data with
      | 'r' :: 'e' :: 'f' :: '_' :: rest =>
          if rest != [] && rest.all (fun c => c.isDigit) then
            some (Int.ofNat (digitsVal rest))
          else none
      | _ => none

/-- The registration step of `bot.start`: parse the deep-link argument and
call `add_user_if_not_exists(user.id, referrer)`. -/
def start (db : DB) (user_id : Int) (args : List String) : DB :=
  add_user_if_not_exists db user_id (parse_ref_arg args)

/-! Section: Observations on a store state -/

/-- The balance column of a user's row (0 when the row is absent, as an
`UPDATE` against a missing row changes nothing). -/
def balanceOf (db : DB) (user_id : Int) : Int :=
  match db.users user_id with
  | some u => u.balance
  | none => 0

/-- The level column of a user's row (new rows are created with level 1, so
an absent row reads as 1). -/
def levelOf (db : DB) (user_id : Int) : Int :=
  match db.users user_id with
  | some u => u.level
  | none => 1

/-- The referrer column of a user's row. -/
def referrerOf (db : DB) (user_id : Int) : Option Int :=
  match db.users user_id with
  | some u => u.referrer_id
  | none => none

/-! Section: The store-mutating operations of the bot, as one step type -/

/-- Every modelled operation that mutates the store: registration, taking a
task, the two approval handlers, the reward engine, promo redemption, the
compliance job, scheduling a watch, and the raw status updates used by the
reject/rework handlers. -/
inductive Op where
  | opStart (user_id : Int) (args : List String)
  | opTakeTask (task_id : Nat) (user_id : Int)
  | opCompleteView (assignment_id : Nat) (from_user : Int)
  | opApproveReaction (assignment_id : Nat)
  | opRewardUser (user_id : Int) (reward : Int)
  | opRedeemPromo (user_id : Int) (code : String) (now : Int)
  | opComplianceJob (watch_id : Nat) (check : MemberCheck)
  | opScheduleWatch (user_id : Int) (chat_id : String) (reward : Int)
      (task_id : Option Nat) (due_at : Int) (stage : String)
  | opUpdateStatus (assignment_id : Nat) (status : String)
      (proof comment : Option String)

/-- Apply one operation to the store. -/
def applyOp (db : DB) : Op → DB
  | .opStart uid args => start db uid args
  | .opTakeTask tid uid => (take_task db tid uid).1
  | .opCompleteView aid fu => complete_view db aid fu
  | .opApproveReaction aid => approve_reaction db aid
  | .opRewardUser uid r => reward_user db uid r
  | .opRedeemPromo uid code now => (redeem_promocode db uid code now).1
  | .opComplianceJob wid check => check_subscription_job db wid check
  | .opScheduleWatch uid chat r tid due stage =>
      (schedule_subscription_watch db uid chat r tid due stage).1
  | .opUpdateStatus aid st p c => update_assignment_status db aid st p c

/-! Section: the inbound webhook (spec-modelled).

The repository is named for its webhook, but the webhook HTTP handler is not
among the files under `src/` (only the bot and database layers are), so the
External Event Ledger is modelled from the spec. -/

/-- Modelled from the spec: a row of the External Event Ledger — "records
externally-sourced reward events keyed by an idempotency token"; the row
stores the idempotency token, source user, event type, and "reward actually
granted (may be 0, e.g., cooldown-suppressed)". -/
structure EventRow where
  event_id : String
  user_id : Int
  etype : String
  granted : Int
deriving Repr, DecidableEq

/-- Modelled from the spec: the state the webhook handler works on — the
ledger store, the write-once event log, and the per-user `DailyCooldown`
last-granted timestamp for the subscription class. -/
structure WebhookState where
  db : DB
  events : List EventRow
  last_sub_grant : Int → Option Int

/-- Modelled from the spec: the webhook response classes the claim needs —
acceptance (with the granted amount, 0 when cooldown-suppressed) and
duplicate. -/
inductive WebhookResult where
  | processed (granted : Int)
  | duplicate
deriving Repr, DecidableEq

/-- Modelled from the spec: the idempotency contract
`recordIfNew(eventId) → true|false` — a single atomic check-and-insert on
the write-once event log. -/
def recordIfNew (events : List EventRow) (e : EventRow) : List EventRow × Bool :=
  if events.any (fun x => x.event_id == e.event_id) then (events, false)
  else (events ++ [e], true)

/-- Modelled from the spec: the webhook event handler, absent from `src/`.
An event is processed only if `recordIfNew` reports new; a `task` event is
always rewarded; a `subscription` event is rewarded at most once per 24
hours per user — within the cooldown it is still recorded with reward 0 —
and additionally pays a flat referral bonus (a configured fixed amount) to
the user's referrer when one exists. -/
def handle_webhook_event (s : WebhookState) (event_id : String) (user_id : Int)
    (etype : String) (reward : Int) (flat_ref_bonus : Int) (now : Int) :
    WebhookState × WebhookResult :=
  if s.events.any (fun x => x.event_id == event_id) then (s, .duplicate)
  else if etype == "subscription" then
    let withinCooldown : Bool :=
      match s.last_sub_grant user_id with
      | some last => now - last < 86400
      | none => false
    if withinCooldown then
      ({ s with events := s.events ++ [⟨event_id, user_id, etype, 0⟩] }, .processed 0)
    else
      let db1 := increment_balance s.db user_id reward
      let db2 :=
        match get_user s.db user_id with
        | some u =>
            if refTruthy u.referrer_id then
              increment_balance db1 (u.referrer_id.getD 0) flat_ref_bonus
            else db1
        | none => db1
      ({ db := db2,
         events := s.events ++ [⟨event_id, user_id, etype, reward⟩],
         last_sub_grant := fun i => if i = user_id then some now else s.last_sub_grant i },
       .processed reward)
  else
    ({ s with
        db := increment_balance s.db user_id reward,
        events := s.events ++ [⟨event_id, user_id, etype, reward⟩] },
     .processed reward)

/-! Section: Concrete states for counterexamples and witnesses -/

/-- The store right after `init_db`: empty tables. -/
def emptyDB : DB where
  users := fun _ => none
  tasks := []
  assignments := []
  promocodes := []
  watches := []
  next_assignment_id := 1
  next_watch_id := 1

/-- A store with one user (id 7, balance 0) and one promo code `BONUS`
worth 100 with 2 global uses left. -/
def dbC1 : DB :=
  { emptyDB with
      users := fun i => if i = 7 then some ⟨0, 1, none⟩ else none,
      promocodes := [⟨"BONUS", 100, none, some 2⟩] }

/-- A store with one reaction task (id 1) and a rejected assignment (id 1)
of user 9 on it. -/
def dbC5 : DB :=
  { emptyDB with
      tasks := [⟨1, "reaction", 500, some 42⟩],
      assignments := [⟨1, 1, 9, "rejected", none, some "Отклонено"⟩],
      next_assignment_id := 2 }

/-- A store with one user (id 3, balance 4900, level 1) and an unlimited
promo code `LEVELUP` worth 200. -/
def dbC8 : DB :=
  { emptyDB with
      users := fun i => if i = 3 then some ⟨4900, 1, none⟩ else none,
      promocodes := [⟨"LEVELUP", 200, none, none⟩] }

/-- A store with a watched user (id 4, balance 1000) and one compliance
watch (id 1) over that user recording an advance payment of 1000, due at
time 700. -/
def dbW : DB :=
  { emptyDB with
      users := fun i => if i = 4 then some ⟨1000, 1, none⟩ else none,
      watches := [⟨1, 4, "@chan", 1000, some 1, 700, "follow"⟩],
      next_watch_id := 2 }

/-- A store with users 2 (balance 10, no referrer) and 8 (balance 50,
referred by 2), a task (id 1) worth 1000, and an approved assignment
(id 1) of user 8 on it. -/
def dbR : DB :=
  { emptyDB with
      users := fun i =>
        if i = 2 then some ⟨10, 1, none⟩
        else if i = 8 then some ⟨50, 1, some 2⟩
        else none,
      tasks := [⟨1, "view", 1000, none⟩],
      assignments := [⟨1, 1, 8, "approved", some "viewed", none⟩],
      next_assignment_id := 2 }

/-! Section: Helper lemmas about the store primitives -/

theorem users_increment_balance (db : DB) (u d v : Int) :
    (increment_balance db u d).users v =
      if v = u then (db.users v).map (fun x => { x with balance := x.balance + d })
      else db.users v := rfl

theorem users_update_level (db : DB) (u : Int) (l : Int) (v : Int) :
    (update_level db u l).users v =
      if v = u then (db.users v).map (fun x => { x with level := l })
      else db.users v := rfl

theorem levelOf_increment_balance (db : DB) (u d v : Int) :
    levelOf (increment_balance db u d) v = levelOf db v := by
  unfold levelOf
  rw [users_increment_balance]
  by_cases h : v = u
  · subst h; cases db.users v <;> simp
  · simp [h]

theorem balanceOf_increment_self (db : DB) (u d : Int) (x : UserRow)
    (hx : db.users u = some x) :
    balanceOf (increment_balance db u d) u = x.balance + d := by
  unfold balanceOf
  rw [users_increment_balance]
  simp [hx]

theorem users_increment_other (db : DB) (u d v : Int) (hv : v ≠ u) :
    (increment_balance db u d).users v = db.users v := by
  rw [users_increment_balance, if_neg hv]

theorem balanceOf_update_level (db : DB) (u : Int) (l : Int) (v : Int) :
    balanceOf (update_level db u l) v = balanceOf db v := by
  unfold balanceOf
  rw [users_update_level]
  by_cases h : v = u
  · subst h; cases db.users v <;> simp
  · simp [h]

theorem levelOf_update_level_other (db : DB) (u : Int) (l : Int) (v : Int) (hv : v ≠ u) :
    levelOf (update_level db u l) v = levelOf db v := by
  unfold levelOf
  rw [users_update_level, if_neg hv]

theorem levelOf_update_level_self (db : DB) (u : Int) (l : Int) (x : UserRow)
    (hx : db.users u = some x) :
    levelOf (update_level db u l) u = l := by
  unfold levelOf
  rw [users_update_level]
  simp [hx]

theorem find?_watch_delete (l : List WatchRow) (wid : Nat) :
    (l.filter (fun w => w.id != wid)).find? (fun w => w.id == wid) = none := by
  rw [List.find?_eq_none]
  intro x hx
  have := (List.mem_filter.mp hx).2
  simpa using this

theorem get_watch_delete (db : DB) (wid : Nat) :
    get_subscription_watch (delete_subscription_watch db wid) wid = none := by
  unfold get_subscription_watch delete_subscription_watch
  exact find?_watch_delete db.watches wid

theorem job_of_missing_watch (db : DB) (wid : Nat) (check : MemberCheck)
    (h : get_subscription_watch db wid = none) :
    check_subscription_job db wid check = db := by
  unfold check_subscription_job
  rw [h]

/-- Unfolding of `reward_user` when the user's row exists: the referrer and
level tests both read the row snapshot taken right after the primary
credit, whose balance is `u.balance + r` and whose other fields are
those of `u`. -/
theorem reward_user_eq (db : DB) (uid r : Int) (u : UserRow)
    (hu : db.users uid = some u) :
    reward_user db uid r =
      (if 5000 ≤ u.balance + r then
        update_level
          (if refTruthy u.referrer_id then
            increment_balance (increment_balance db uid r) (u.referrer_id.getD 0) (ref_bonus r)
          else increment_balance db uid r)
          uid (max u.level 2)
      else
        (if refTruthy u.referrer_id then
          increment_balance (increment_balance db uid r) (u.referrer_id.getD 0) (ref_bonus r)
        else increment_balance db uid r)) := by
  simp only [reward_user, get_user, users_increment_balance]
  simp [hu]

theorem reward_user_balance_self (db : DB) (uid r : Int) (u : UserRow)
    (hu : db.users uid = some u) (hns : u.referrer_id ≠ some uid) :
    balanceOf (reward_user db uid r) uid = u.balance + r := by
  rw [reward_user_eq db uid r u hu]
  have hself : balanceOf (increment_balance db uid r) uid = u.balance + r :=
    balanceOf_increment_self db uid r u hu
  have hbr : balanceOf
      (if refTruthy u.referrer_id then
        increment_balance (increment_balance db uid r) (u.referrer_id.getD 0) (ref_bonus r)
      else increment_balance db uid r) uid = u.balance + r := by
    by_cases ht : refTruthy u.referrer_id
    · rw [if_pos ht]
      cases href : u.referrer_id with
      | none => rw [href] at ht; exact absurd ht (by simp [refTruthy])
      | some rr =>
          have hrr : rr ≠ uid := fun hc => hns (hc ▸ href)
          unfold balanceOf
          rw [Option.getD_some, users_increment_other _ _ _ _ hrr.symm]
          unfold balanceOf at hself
          exact hself
    · rw [if_neg ht]; exact hself
  by_cases hb : 5000 ≤ u.balance + r
  · rw [if_pos hb, balanceOf_update_level]; exact hbr
  · rw [if_neg hb]; exact hbr

theorem reward_user_balance_referrer (db : DB) (uid r rr : Int) (u ru : UserRow)
    (hu : db.users uid = some u) (href : u.referrer_id = some rr)
    (h0 : rr ≠ 0) (hru : rr ≠ uid) (hr : db.users rr = some ru) :
    balanceOf (reward_user db uid r) rr = ru.balance + ref_bonus r := by
  rw [reward_user_eq db uid r u hu]
  have ht : refTruthy u.referrer_id = true := by simp [refTruthy, href, h0]
  have hr1 : (increment_balance db uid r).users rr = some ru := by
    rw [users_increment_other db uid r rr hru]; exact hr
  have h2 : balanceOf
      (if refTruthy u.referrer_id then
        increment_balance (increment_balance db uid r) (u.referrer_id.getD 0) (ref_bonus r)
      else increment_balance db uid r) rr = ru.balance + ref_bonus r := by
    rw [if_pos ht, href, Option.getD_some]
    exact balanceOf_increment_self (increment_balance db uid r) rr (ref_bonus r) ru hr1
  by_cases hb : 5000 ≤ u.balance + r
  · rw [if_pos hb, balanceOf_update_level]; exact h2
  · rw [if_neg hb]; exact h2

theorem reward_user_no_referrer (db : DB) (uid r : Int) (u : UserRow)
    (hu : db.users uid = some u) (href : u.referrer_id = none)
    (v : Int) (hv : v ≠ uid) :
    (reward_user db uid r).users v = db.users v := by
  rw [reward_user_eq db uid r u hu]
  have ht : refTruthy u.referrer_id = false := by simp [refTruthy, href]
  have ht2 : ¬ (refTruthy u.referrer_id = true) := by simp [ht]
  by_cases hb : 5000 ≤ u.balance + r
  · rw [if_pos hb, users_update_level, if_neg hv, if_neg ht2,
      users_increment_other db uid r v hv]
  · rw [if_neg hb, if_neg ht2, users_increment_other db uid r v hv]

/-! Section: Claim C3 — restart re-arming of compliance watches -/

/-- C3: on process restart, `reschedule_watches` re-arms every stored
compliance watch with delay `max(0, dueAt - now)` — nothing is dropped
(the armed job list is as long as the watch table, and each watch
contributes its own entry), and a watch whose due time has already passed
is armed with delay 0, i.e. fires immediately. -/
theorem c3_restart_rearms_every_watch (db : DB) (now : Int) :
    (reschedule_watches db now).length = db.watches.length ∧
    ∀ w ∈ db.watches,
      (w.id, max 0 (w.due_at - now)) ∈ reschedule_watches db now ∧
      (w.due_at ≤ now → (w.id, (0 : Int)) ∈ reschedule_watches db now) := by
  refine ⟨by simp [reschedule_watches], ?_⟩
  intro w hw
  refine ⟨List.mem_map.mpr ⟨w, hw, rfl⟩, ?_⟩
  intro hdue
  have h0 : max 0 (w.due_at - now) = 0 := max_eq_left (by omega)
  exact h0 ▸ List.mem_map.mpr ⟨w, hw, rfl⟩

/-- Witness for C3 at the concrete store `dbW` (one watch, id 1, due at 700)
restarted at time 1000, past the due time: the armed list has exactly the
entry (1, 0). -/
theorem c3_witness :
    (reschedule_watches dbW 1000).length = dbW.watches.length ∧
    ((1 : Nat), (0 : Int)) ∈ reschedule_watches dbW 1000 :=
  ⟨(c3_restart_rearms_every_watch dbW 1000).1,
   ((c3_restart_rearms_every_watch dbW 1000).2 ⟨1, 4, "@chan", 1000, some 1, 700, "follow"⟩
      (by decide)).2 (by decide)⟩

/-! Section: Claim C7 — first-referrer-wins -/

/-- C7: the referrer link is immutable once set: when a user's row already
stores a non-null `referrer_id`, a later `add_user_if_not_exists` call with
any referrer argument (in particular a different one) leaves the stored
referrer unchanged, because the update writes
`COALESCE(referrer_id, new)`. -/
theorem c7_first_referrer_wins (db : DB) (uid r : Int) (arg : Option Int)
    (h : referrerOf db uid = some r) :
    referrerOf (add_user_if_not_exists db uid arg) uid = some r := by
  unfold referrerOf at h ⊢
  unfold add_user_if_not_exists
  cases hu : db.users uid with
  | none => rw [hu] at h; exact absurd h (by simp)
  | some u =>
      rw [hu] at h
      by_cases ht : refTruthy arg
      · simp only [ht, if_true]
        simp only [] at h
        simp [show u.referrer_id = some r from h]
      · simp only [ht, Bool.false_eq_true, if_false]
        rw [hu]
        exact h

/-- Witness for C7: user 8 in `dbR` has stored referrer 2; a registration
call carrying referrer argument 99 leaves it at 2. -/
theorem c7_witness :
    referrerOf dbR 8 = some 2 ∧
    referrerOf (add_user_if_not_exists dbR 8 (some 99)) 8 = some 2 :=
  ⟨by decide, c7_first_referrer_wins dbR 8 2 (some 99) (by decide)⟩

/-! Section: Claim C6 — no self-referral (refuted: the code never guards it) -/

/-- C6 (failing input): the spec invariant "a user cannot be their own
referrer" does not hold of the code. Neither `bot.start` nor
`database.add_user_if_not_exists` compares the referrer argument with the
user id: a fresh user 5 issuing `/start ref_5` is inserted with
`referrer_id = 5`, their own id. -/
theorem c6_self_referrer_reachable :
    referrerOf (start emptyDB 5 ["ref_5"]) 5 = some 5 := by decide

/-! Section: Claim C5 — retaking after rejected/needs_work (code bug) -/

/-- C5 (failing input): `bot.take_task` lets a user retake a task whose
prior assignment is `rejected` or `needs_work`, but
`database.create_assignment` is an `INSERT OR IGNORE` against the
`UNIQUE(task_id, user_id)` constraint, so with the prior row still in the
table nothing is inserted: on the concrete store `dbC5` (assignment 1 of
user 9 on task 1, status `rejected`) the handler reports the task as taken
with the meaningless id 0, the store is completely unchanged, and the
pair's only assignment still has status `rejected` — no new Pending
assignment exists, contrary to the claim. -/
theorem c5_retake_creates_no_assignment :
    (take_task dbC5 1 9).2 = TakeResult.taken 0 ∧
    (take_task dbC5 1 9).1 = dbC5 ∧
    get_assignment_by_task_user (take_task dbC5 1 9).1 1 9 =
      some ⟨1, 1, 9, "rejected", none, some "Отклонено"⟩ :=
  ⟨by decide, rfl, by decide⟩

/-! Section: Claim C2 — compliance firing: clawback, unconditional deletion, no-op refire -/

/-- C2: when a compliance watch fires, (i) if the membership check reports
not-a-member or errors (the fail-closed policy), the watched user's balance
drops by exactly the watch's recorded reward — the amount paid in advance
when the watch was scheduled; (ii) the watch row is deleted whatever the
check's outcome (success, failure, or error); (iii) firing again for the
same watch id is a no-op that leaves the store — in particular every
balance — unchanged. -/
theorem c2_compliance_firing (db : DB) (wid : Nat) (w : WatchRow) (u : UserRow)
    (hw : get_subscription_watch db wid = some w)
    (hu : db.users w.user_id = some u) :
    (∀ check, check ≠ MemberCheck.member →
        balanceOf (check_subscription_job db wid check) w.user_id = u.balance - w.reward) ∧
    (∀ check, get_subscription_watch (check_subscription_job db wid check) wid = none) ∧
    (∀ check check2,
        check_subscription_job (check_subscription_job db wid check) wid check2 =
          check_subscription_job db wid check) := by
  have hjob : ∀ check, check_subscription_job db wid check =
      delete_subscription_watch
        (if memberOk check then db else increment_balance db w.user_id (-w.reward)) wid := by
    intro check
    unfold check_subscription_job
    rw [hw]
  refine ⟨?_, ?_, ?_⟩
  · intro check hc
    have hmem : memberOk check = false := by cases check <;> simp_all [memberOk]
    rw [hjob check, hmem]
    simp only [Bool.false_eq_true, if_false]
    have : balanceOf (increment_balance db w.user_id (-w.reward)) w.user_id =
        u.balance + (-w.reward) := balanceOf_increment_self db w.user_id (-w.reward) u hu
    unfold balanceOf at this ⊢
    unfold delete_subscription_watch
    simp only []
    rw [this]
    ring
  · intro check
    rw [hjob check]
    exact get_watch_delete _ wid
  · intro check check2
    apply job_of_missing_watch
    rw [hjob check]
    exact get_watch_delete _ wid

/-- Witness for C2 at the concrete store `dbW` (watch 1 over user 4, reward
1000, user balance 1000): firing with an erroring check debits exactly
1000, deletes the watch, and a refire is a no-op. -/
theorem c2_witness :
    balanceOf (check_subscription_job dbW 1 MemberCheck.unknown) 4 = 0 ∧
    get_subscription_watch (check_subscription_job dbW 1 MemberCheck.member) 1 = none ∧
    check_subscription_job (check_subscription_job dbW 1 MemberCheck.unknown) 1
        MemberCheck.notMember =
      check_subscription_job dbW 1 MemberCheck.unknown :=
  ⟨(c2_compliance_firing dbW 1 ⟨1, 4, "@chan", 1000, some 1, 700, "follow"⟩ ⟨1000, 1, none⟩
      (by decide) (by decide)).1 MemberCheck.unknown (by decide),
   (c2_compliance_firing dbW 1 ⟨1, 4, "@chan", 1000, some 1, 700, "follow"⟩ ⟨1000, 1, none⟩
      (by decide) (by decide)).2.1 MemberCheck.member,
   (c2_compliance_firing dbW 1 ⟨1, 4, "@chan", 1000, some 1, 700, "follow"⟩ ⟨1000, 1, none⟩
      (by decide) (by decide)).2.2 MemberCheck.unknown MemberCheck.notMember⟩

/-! Section: Claim C4 — referral bonus on rewards -/

/-- C4: when `reward_user` pays a positive reward to a user whose stored
referrer link points at an existing other user (`referrer_id` truthy, i.e.
non-null and non-zero — the code's own notion of having a referrer — and
distinct from the earner, per the spec's no-self-referrer data model), that
referrer's balance rises by exactly `ref_bonus reward`, the exact-arithmetic
value of the code's `math.floor(reward * 0.15)`; and when the rewarded user
has no referrer link, no row other than the earner's changes, so no
secondary credit goes to anyone. -/
theorem c4_referral_bonus (db : DB) (uid reward : Int) (hpos : 0 < reward) :
    (∀ rr u ru, db.users uid = some u → u.referrer_id = some rr → rr ≠ 0 → rr ≠ uid →
        db.users rr = some ru →
        balanceOf (reward_user db uid reward) rr = ru.balance + ref_bonus reward) ∧
    (∀ u, db.users uid = some u → u.referrer_id = none →
        ∀ v, v ≠ uid → (reward_user db uid reward).users v = db.users v) := by
  constructor
  · intro rr u ru hu href h0 hru hr
    exact reward_user_balance_referrer db uid reward rr u ru hu href h0 hru hr
  · intro u hu href v hv
    exact reward_user_no_referrer db uid reward u hu href v hv

/-- Witness for C4 at the concrete store `dbR`: user 8 (balance 50, referred
by user 2 whose balance is 10) is paid 1000; user 2's balance becomes
`10 + 150` since `ref_bonus 1000 = 150 = floor(1000 * 0.15)`. -/
theorem c4_witness :
    ref_bonus 1000 = 150 ∧ balanceOf (reward_user dbR 8 1000) 2 = 160 :=
  ⟨by decide,
   by
    have h := (c4_referral_bonus dbR 8 1000 (by decide)).1 2 ⟨50, 1, some 2⟩ ⟨10, 1, none⟩
      (by decide) (by decide) (by decide) (by decide) (by decide)
    simpa using h⟩

/-! Section: Claim C10 — approval handlers pay again on every invocation -/

/-- C10: neither `complete_view` nor `approve_reaction` inspects the
assignment's current status before paying: on an assignment that is
already `approved`, each handler still pays `task.reward` to the
assignment's user (for `complete_view` the clicking user, here the
assignment's own user) and re-stamps the status `approved`, so every
repeated invocation raises the balance by `task.reward` again. -/
theorem c10_approval_not_idempotent (db : DB) (aid : Nat) (a : AssignmentRow)
    (t : TaskRow) (u : UserRow)
    (ha : get_assignment db aid = some a)
    (hstatus : a.status = "approved")
    (ht : get_task db a.task_id = some t)
    (hu : db.users a.user_id = some u)
    (hns : u.referrer_id ≠ some a.user_id) :
    balanceOf (complete_view db aid a.user_id) a.user_id = u.balance + t.reward ∧
    balanceOf (approve_reaction db aid) a.user_id = u.balance + t.reward := by
  have hbal : ∀ db2 : DB, db2.users = (reward_user db a.user_id t.reward).users →
      balanceOf db2 a.user_id = u.balance + t.reward := by
    intro db2 h2
    unfold balanceOf
    rw [h2]
    have := reward_user_balance_self db a.user_id t.reward u hu hns
    unfold balanceOf at this
    exact this
  constructor
  · unfold complete_view
    simp only [ha, ht]
    exact hbal _ rfl
  · unfold approve_reaction
    simp only [ha, ht]
    exact hbal _ rfl

/-- Witness for C10 at the concrete store `dbR`: assignment 1 of user 8 on
task 1 (reward 1000) is already `approved`; both handlers still pay,
leaving user 8 at `50 + 1000`. -/
theorem c10_witness :
    balanceOf (complete_view dbR 1 8) 8 = 1050 ∧
    balanceOf (approve_reaction dbR 1) 8 = 1050 :=
  c10_approval_not_idempotent dbR 1 ⟨1, 1, 8, "approved", some "viewed", none⟩
    ⟨1, "view", 1000, none⟩ ⟨50, 1, some 2⟩
    (by decide) (by decide) (by decide) (by decide) (by decide)

/-! Section: Claim C1 — per-user double redemption of a promo code -/

/-- The uses-left decrement written by `redeem_promocode` keeps the code
column unchanged. -/
theorem promo_decrement_code (cc : String) (q : PromoRow) :
    (if q.code == cc then { q with uses_left := q.uses_left.map (fun n => n - 1) }
     else q).code = q.code := by
  by_cases h : q.code == cc <;> simp [h]

/-- Looking a code up after the uses-left decrement pass finds the decremented
image of the row the lookup found before. -/
theorem find?_promo_decrement (l : List PromoRow) (c cc : String) :
    (l.map (fun q =>
        if q.code == cc then { q with uses_left := q.uses_left.map (fun n => n - 1) }
        else q)).find? (fun q => q.code == c) =
      (l.find? (fun q => q.code == c)).map (fun q =>
        if q.code == cc then { q with uses_left := q.uses_left.map (fun n => n - 1) }
        else q) := by
  rw [List.find?_map]
  have hc : ((fun q : PromoRow => q.code == c) ∘ (fun q =>
      if q.code == cc then { q with uses_left := q.uses_left.map (fun n => n - 1) }
      else q)) = fun q : PromoRow => q.code == c := by
    funext q
    by_cases h : q.code == cc <;> simp [Function.comp, h]
  rw [hc]

/-- Unfolding of `redeem_promocode` on the success path: the row was found,
is unexpired and unexhausted, so the user is credited, the uses counter is
decremented when tracked, and the call reports success. -/
theorem redeem_eq (db : DB) (uid : Int) (code : String) (now : Int) (p : PromoRow)
    (hp : db.promocodes.find? (fun q => q.code == strUpper code) = some p)
    (hexp : promoExpired p.expires_at now = false)
    (hex : promoExhausted p.uses_left = false) :
    redeem_promocode db uid code now =
      ((if p.uses_left != none then
          { increment_balance db uid p.reward with
              promocodes := db.promocodes.map (fun q =>
                if q.code == p.code then
                  { q with uses_left := q.uses_left.map (fun n => n - 1) }
                else q) }
        else increment_balance db uid p.reward),
       true, "Промокод применён", p.reward) := by
  unfold redeem_promocode
  rw [hp]
  simp [hexp, hex]
  rfl

/-- C1 (counterexample): on the concrete store `dbC1` — user 7 and code
`BONUS` worth 100 with 2 global uses left — the same user redeems the same
code twice; the claim demands the second attempt be rejected
(`AlreadyUsed`) and the balance be credited once, but both attempts report
success and the balance is credited twice, reaching 200. -/
theorem c1_counterexample :
    (redeem_promocode dbC1 7 "BONUS" 0).2.1 = true ∧
    (redeem_promocode (redeem_promocode dbC1 7 "BONUS" 0).1 7 "BONUS" 0).2.1 = true ∧
    balanceOf (redeem_promocode (redeem_promocode dbC1 7 "BONUS" 0).1 7 "BONUS" 0).1 7 =
      200 := by
  refine ⟨by decide, by decide, by decide⟩

/-- C1 (amended): `redeem_promocode` keeps no per-user activation record, so
for every user whose row exists and every stored promo code that is
unexpired and has at least two uses left (or an untracked unlimited
counter), a second redemption of the same code by the same user is NOT
rejected: both calls report success and the user's balance is credited
twice, ending at `balance + 2 * reward`. Rejection happens only for a
missing, expired, or globally exhausted code. -/
theorem c1_amended_double_redemption (db : DB) (uid : Int) (code : String) (now : Int)
    (p : PromoRow) (u : UserRow)
    (hp : db.promocodes.find? (fun q => q.code == strUpper code) = some p)
    (hexp : promoExpired p.expires_at now = false)
    (huses : p.uses_left = none ∨ ∃ n, p.uses_left = some n ∧ 2 ≤ n)
    (hu : db.users uid = some u) :
    (redeem_promocode db uid code now).2.1 = true ∧
    (redeem_promocode (redeem_promocode db uid code now).1 uid code now).2.1 = true ∧
    balanceOf (redeem_promocode (redeem_promocode db uid code now).1 uid code now).1 uid =
      u.balance + 2 * p.reward := by
  have hex : promoExhausted p.uses_left = false := by
    rcases huses with h | ⟨n, hn, h2⟩
    · rw [h]; rfl
    · rw [hn]; simp [promoExhausted]; omega
  have hu1 : (increment_balance db uid p.reward).users uid =
      some { u with balance := u.balance + p.reward } := by
    rw [users_increment_balance]; simp [hu]
  have hfirst : (redeem_promocode db uid code now).2.1 = true := by
    rw [redeem_eq db uid code now p hp hexp hex]
  rcases huses with hnone | ⟨n, hn, h2⟩
  · -- untracked counter: the promo table is left alone
    have hdb2 : (redeem_promocode db uid code now).1 = increment_balance db uid p.reward := by
      rw [redeem_eq db uid code now p hp hexp hex]
      simp [hnone]
    have hp2 : (increment_balance db uid p.reward).promocodes.find?
        (fun q => q.code == strUpper code) = some p := hp
    refine ⟨hfirst, ?_, ?_⟩
    · rw [hdb2, redeem_eq _ uid code now p hp2 hexp hex]
    · rw [hdb2, redeem_eq _ uid code now p hp2 hexp hex]
      simp only [hnone, bne_self_eq_false, Bool.false_eq_true, if_false]
      rw [balanceOf_increment_self (increment_balance db uid p.reward) uid p.reward
        { u with balance := u.balance + p.reward } hu1]
      simp
      ring
  · -- tracked counter with at least two uses left
    have hif : (p.uses_left != none) = true := by rw [hn]; rfl
    have hdb2 : (redeem_promocode db uid code now).1 =
        { increment_balance db uid p.reward with
            promocodes := db.promocodes.map (fun q =>
              if q.code == p.code then
                { q with uses_left := q.uses_left.map (fun m => m - 1) }
              else q) } := by
      rw [redeem_eq db uid code now p hp hexp hex, hif]
      rfl
    have hfp : (if p.code == p.code then
        { p with uses_left := p.uses_left.map (fun m => m - 1) } else p) =
        { p with uses_left := some (n - 1) } := by
      simp [hn]
    have hp2 : (redeem_promocode db uid code now).1.promocodes.find?
        (fun q => q.code == strUpper code) = some { p with uses_left := some (n - 1) } := by
      rw [hdb2]
      show (db.promocodes.map (fun q =>
          if q.code == p.code then
            { q with uses_left := q.uses_left.map (fun m => m - 1) }
          else q)).find? (fun q => q.code == strUpper code) = _
      rw [find?_promo_decrement, hp]
      simp only [Option.map_some']
      rw [hfp]
    have hexp2 : promoExpired (PromoRow.mk p.code p.reward p.expires_at
        (some (n - 1))).expires_at now = false := hexp
    have hex2 : promoExhausted (PromoRow.mk p.code p.reward p.expires_at
        (some (n - 1))).uses_left = false := by
      simp [promoExhausted]; omega
    refine ⟨hfirst, ?_, ?_⟩
    · rw [redeem_eq _ uid code now _ hp2 hexp2 hex2]
    · rw [redeem_eq _ uid code now _ hp2 hexp2 hex2]
      have hifn : ((PromoRow.mk p.code p.reward p.expires_at (some (n - 1))).uses_left
          != none) = true := rfl
      rw [hifn]
      simp only [if_true]
      have hua : (redeem_promocode db uid code now).1.users uid =
          some { u with balance := u.balance + p.reward } := by
        rw [hdb2]; exact hu1
      have hstep : balanceOf
          (increment_balance (redeem_promocode db uid code now).1 uid
            (PromoRow.mk p.code p.reward p.expires_at (some (n - 1))).reward) uid =
          (u.balance + p.reward) + p.reward :=
        balanceOf_increment_self _ uid _ { u with balance := u.balance + p.reward } hua
      unfold balanceOf at hstep ⊢
      rw [hstep]
      ring

/-- Witness for the amended C1 at the concrete store `dbC1`: user 7
(balance 0) redeems `BONUS` (reward 100, 2 uses left) twice; both succeed
and the balance ends at `0 + 2 * 100`. -/
theorem c1_amended_witness :
    (redeem_promocode dbC1 7 "BONUS" 0).2.1 = true ∧
    (redeem_promocode (redeem_promocode dbC1 7 "BONUS" 0).1 7 "BONUS" 0).2.1 = true ∧
    balanceOf (redeem_promocode (redeem_promocode dbC1 7 "BONUS" 0).1 7 "BONUS" 0).1 7 =
      0 + 2 * 100 :=
  c1_amended_double_redemption dbC1 7 "BONUS" 0 ⟨"BONUS", 100, none, some 2⟩ ⟨0, 1, none⟩
    (by decide) (by decide) (Or.inr ⟨2, rfl, by decide⟩) (by decide)

/-! Section: Claim C8 — tier upgrades and monotonicity -/

theorem users_isSome_increment (db : DB) (u d v : Int) :
    ((increment_balance db u d).users v).isSome = ((db.users v).isSome) := by
  rw [users_increment_balance]
  by_cases h : v = u
  · subst h; cases db.users v <;> simp
  · rw [if_neg h]

theorem levelOf_update_level_self_of_isSome (db : DB) (u : Int) (l : Int)
    (h : (db.users u).isSome = true) :
    levelOf (update_level db u l) u = l := by
  obtain ⟨x, hx⟩ := Option.isSome_iff_exists.mp h
  exact levelOf_update_level_self db u l x hx

/-- Registration (`add_user_if_not_exists`) never changes a level: creation writes level 1,
which an absent row already reads as, and the referrer update copies the
level. -/
theorem levelOf_add_user (db : DB) (uid : Int) (ref : Option Int) (v : Int) :
    levelOf (add_user_if_not_exists db uid ref) v = levelOf db v := by
  unfold add_user_if_not_exists
  split
  · rename_i heq
    unfold levelOf
    by_cases h : v = uid
    · subst h; rw [heq]; simp
    · simp [h]
  · rename_i u heq
    by_cases ht : refTruthy ref
    · rw [if_pos ht]
      unfold levelOf
      by_cases h : v = uid
      · subst h; rw [heq]; simp
      · simp [h]
    · rw [if_neg ht]

theorem take_task_users (db : DB) (tid : Nat) (uid : Int) :
    (take_task db tid uid).1.users = db.users := by
  unfold take_task create_assignment
  split
  · rfl
  · split
    · split
      · rfl
      · split <;> rfl
    · split <;> rfl

/-- The state `reward_user` returns when the user's row is absent: only the
(no-op) primary credit happened. -/
theorem reward_user_eq_none (db : DB) (uid r : Int) (hu : db.users uid = none) :
    reward_user db uid r = increment_balance db uid r := by
  simp only [reward_user, get_user, users_increment_balance]
  simp [hu]

/-- The reward engine (`reward_user`) never lowers any level: the only level write is
`max(level, 2)` of the snapshot level. -/
theorem levelOf_reward_user_mono (db : DB) (uid r v : Int) :
    levelOf db v ≤ levelOf (reward_user db uid r) v := by
  cases hu : db.users uid with
  | none => rw [reward_user_eq_none db uid r hu, levelOf_increment_balance]
  | some u =>
      rw [reward_user_eq db uid r u hu]
      have hdb2 : ∀ w : Int, levelOf
          (if refTruthy u.referrer_id then
            increment_balance (increment_balance db uid r) (u.referrer_id.getD 0) (ref_bonus r)
          else increment_balance db uid r) w = levelOf db w := by
        intro w
        by_cases ht : refTruthy u.referrer_id
        · rw [if_pos ht, levelOf_increment_balance, levelOf_increment_balance]
        · rw [if_neg ht, levelOf_increment_balance]
      have hsome2 : ((if refTruthy u.referrer_id then
          increment_balance (increment_balance db uid r) (u.referrer_id.getD 0) (ref_bonus r)
        else increment_balance db uid r).users uid).isSome = true := by
        by_cases ht : refTruthy u.referrer_id
        · rw [if_pos ht, users_isSome_increment, users_isSome_increment, hu]; rfl
        · rw [if_neg ht, users_isSome_increment, hu]; rfl
      by_cases hb : 5000 ≤ u.balance + r
      · rw [if_pos hb]
        by_cases hv : v = uid
        · subst hv
          rw [levelOf_update_level_self_of_isSome _ _ _ hsome2]
          have : levelOf db v = u.level := by unfold levelOf; rw [hu]
          rw [this]
          exact le_max_left _ _
        · rw [levelOf_update_level_other _ _ _ _ hv, hdb2]
      · rw [if_neg hb, hdb2]

/-- Promo redemption never touches a level column. -/
theorem levelOf_redeem (db : DB) (uid : Int) (code : String) (now : Int) (v : Int) :
    levelOf (redeem_promocode db uid code now).1 v = levelOf db v := by
  unfold redeem_promocode
  split
  · rfl
  · split
    · rfl
    · split
      · rfl
      · split
        · show levelOf { increment_balance db uid _ with promocodes := _ } v = _
          show levelOf (increment_balance db uid _) v = _
          rw [levelOf_increment_balance]
        · show levelOf (increment_balance db uid _) v = _
          rw [levelOf_increment_balance]

/-- The compliance job never touches a level column. -/
theorem levelOf_job (db : DB) (wid : Nat) (check : MemberCheck) (v : Int) :
    levelOf (check_subscription_job db wid check) v = levelOf db v := by
  unfold check_subscription_job
  split
  · rfl
  · show levelOf (delete_subscription_watch _ _) v = _
    unfold delete_subscription_watch
    split
    · rfl
    · show levelOf (increment_balance db _ _) v = _
      rw [levelOf_increment_balance]

/-- Assignment status updates never touch the users table. -/
theorem levelOf_update_status (db : DB) (aid : Nat) (st : String) (p c : Option String)
    (v : Int) :
    levelOf (update_assignment_status db aid st p c) v = levelOf db v := rfl

/-- No modelled operation ever lowers a user's level. -/
theorem levelOf_applyOp_mono (db : DB) (op : Op) (v : Int) :
    levelOf db v ≤ levelOf (applyOp db op) v := by
  cases op with
  | opStart uid args =>
      show levelOf db v ≤ levelOf (start db uid args) v
      unfold start
      rw [levelOf_add_user]
  | opTakeTask tid uid =>
      show levelOf db v ≤ levelOf (take_task db tid uid).1 v
      unfold levelOf
      rw [take_task_users]
  | opCompleteView aid fu =>
      show levelOf db v ≤ levelOf (complete_view db aid fu) v
      unfold complete_view
      split
      · exact le_refl (levelOf db v)
      · split
        · exact le_refl (levelOf db v)
        · simp only [levelOf_update_status]
          exact levelOf_reward_user_mono db fu _ v
  | opApproveReaction aid =>
      show levelOf db v ≤ levelOf (approve_reaction db aid) v
      unfold approve_reaction
      split
      · exact le_refl (levelOf db v)
      · split
        · exact le_refl (levelOf db v)
        · simp only [levelOf_update_status]
          exact levelOf_reward_user_mono db _ _ v
  | opRewardUser uid r =>
      exact levelOf_reward_user_mono db uid r v
  | opRedeemPromo uid code now =>
      show levelOf db v ≤ levelOf (redeem_promocode db uid code now).1 v
      rw [levelOf_redeem]
  | opComplianceJob wid check =>
      show levelOf db v ≤ levelOf (check_subscription_job db wid check) v
      rw [levelOf_job]
  | opScheduleWatch uid chat r tid due stage =>
      exact le_refl (levelOf db v)
  | opUpdateStatus aid st p c =>
      exact le_refl (levelOf db v)

/-- C8 (counterexample): on the concrete store `dbC8`, user 3 (balance 4900,
level 1) redeems the promo `LEVELUP` worth 200; the balance crosses the
5000 threshold (it becomes 5100) but `redeem_promocode` performs no tier
recalculation, so the level stays 1 — refuting "after any balance-updating
operation ... tier raised to 2". -/
theorem c8_counterexample :
    (redeem_promocode dbC8 3 "LEVELUP" 0).2.1 = true ∧
    balanceOf (redeem_promocode dbC8 3 "LEVELUP" 0).1 3 = 5100 ∧
    levelOf (redeem_promocode dbC8 3 "LEVELUP" 0).1 3 = 1 := by
  refine ⟨by decide, by decide, by decide⟩

/-- C8 (amended): the tier rule holds only for the reward engine: (i) no
modelled operation ever lowers a level; (ii) after `reward_user`, a user
whose post-credit balance reaches 5000 has level set to `max(level, 2)`;
but (iii) `redeem_promocode` changes balances without recomputing any
level, so a promo redemption that takes the balance past 5000 leaves the
tier unchanged until the next `reward_user`. -/
theorem c8_amended_tier_rules :
    (∀ db : DB, ∀ op : Op, ∀ v : Int, levelOf db v ≤ levelOf (applyOp db op) v) ∧
    (∀ db : DB, ∀ uid r : Int, ∀ u : UserRow, db.users uid = some u →
        5000 ≤ u.balance + r →
        levelOf (reward_user db uid r) uid = max u.level 2) ∧
    (∀ db : DB, ∀ uid : Int, ∀ code : String, ∀ now v : Int,
        levelOf (redeem_promocode db uid code now).1 v = levelOf db v) := by
  refine ⟨levelOf_applyOp_mono, ?_, fun db uid code now v => levelOf_redeem db uid code now v⟩
  intro db uid r u hu hb
  rw [reward_user_eq db uid r u hu, if_pos hb]
  have hsome2 : ((if refTruthy u.referrer_id then
      increment_balance (increment_balance db uid r) (u.referrer_id.getD 0) (ref_bonus r)
    else increment_balance db uid r).users uid).isSome = true := by
    by_cases ht : refTruthy u.referrer_id
    · rw [if_pos ht, users_isSome_increment, users_isSome_increment, hu]; rfl
    · rw [if_neg ht, users_isSome_increment, hu]; rfl
  exact levelOf_update_level_self_of_isSome _ _ _ hsome2

/-- Witness for the amended C8 at the concrete store `dbC8`: paying user 3
(balance 4900, level 1) a reward of 200 through the reward engine crosses
the threshold and raises the level to `max 1 2 = 2`. -/
theorem c8_amended_witness :
    levelOf (reward_user dbC8 3 200) 3 = max 1 2 :=
  c8_amended_tier_rules.2.1 dbC8 3 200 ⟨4900, 1, none⟩ (by decide) (by decide)

/-! Section: Claim C9 — webhook idempotency (spec-modelled) -/

/-- After any delivery of an event, that event's id is present in the log:
either it was just recorded, or it was already there and the state was
returned unchanged. -/
theorem webhook_event_recorded (s : WebhookState) (event_id : String) (user_id : Int)
    (etype : String) (reward flat now : Int) :
    ((handle_webhook_event s event_id user_id etype reward flat now).1.events.any
      (fun x => x.event_id == event_id)) = true := by
  unfold handle_webhook_event
  by_cases h0 : s.events.any (fun x => x.event_id == event_id) = true
  · simp only [h0, if_true]
  · simp only [h0, Bool.false_eq_true, if_false]
    split
    · split <;> simp [List.any_append]
    · simp [List.any_append]

/-- A delivery whose event id is already in the log is rejected as a
duplicate with the state untouched. -/
theorem handle_webhook_already_recorded (s : WebhookState) (event_id : String)
    (user_id : Int) (etype : String) (reward flat now : Int)
    (h : s.events.any (fun x => x.event_id == event_id) = true) :
    handle_webhook_event s event_id user_id etype reward flat now =
      (s, WebhookResult.duplicate) := by
  unfold handle_webhook_event
  rw [if_pos h]

/-- C9: delivering the same webhook event twice (same `event_id`) applies a
reward at most once. Whatever the first delivery did, the second delivery
carrying the same `event_id` — with any user, type, reward, bonus or
timestamp fields — reports `duplicate` and returns the state after the
first delivery completely unchanged: no user's balance moves. Modelled
from the spec (§4.5/§6): the webhook HTTP handler itself is not under
`src/`. -/
theorem c9_duplicate_delivery (s : WebhookState) (event_id : String) (user_id : Int)
    (etype : String) (reward flat now : Int)
    (user_id2 : Int) (etype2 : String) (reward2 flat2 now2 : Int) :
    handle_webhook_event (handle_webhook_event s event_id user_id etype reward flat now).1
        event_id user_id2 etype2 reward2 flat2 now2 =
      ((handle_webhook_event s event_id user_id etype reward flat now).1,
        WebhookResult.duplicate) :=
  handle_webhook_already_recorded _ event_id user_id2 etype2 reward2 flat2 now2
    (webhook_event_recorded s event_id user_id etype reward flat now)
